import Mathlib

/-!
Verification of the endless-corridor path system
(frontend/game: LevelManager, GameManager, CharacterAnimator, CharacterController).

The JavaScript source is shallowly embedded over the real numbers: three.js
vectors become `V3`, group transforms (position + Y-rotation) become explicit
rotation/translation functions, JS `%` on numbers becomes `jsfmod`
(truncated-division remainder), and `THREE.MathUtils.lerp` becomes `lerp`.
String-valued tags ("JUNCTION", missing `type` property) become the
inductive `ChunkTag`; note that `LevelManager.spawnChunk` pushes chunks
WITHOUT a `type` field, which is modelled by `ChunkTag.untagged`.
-/

namespace Corridor

/-- Three-component vector over the reals, standing in for `THREE.Vector3`. -/
@[ext]
structure V3 where
  x : ℝ
  y : ℝ
  z : ℝ

def v3add (a b : V3) : V3 := ⟨a.x + b.x, a.y + b.y, a.z + b.z⟩

def v3sub (a b : V3) : V3 := ⟨a.x - b.x, a.y - b.y, a.z - b.z⟩

def smul (t : ℝ) (v : V3) : V3 := ⟨t * v.x, t * v.y, t * v.z⟩

/-- Cross product, as `THREE.Vector3.cross`. -/
def cross (a b : V3) : V3 :=
  ⟨a.y * b.z - a.z * b.y, a.z * b.x - a.x * b.z, a.x * b.y - a.y * b.x⟩

/-- Euclidean length of a `V3`. -/
noncomputable def v3len (v : V3) : ℝ := Real.sqrt (v.x ^ 2 + v.y ^ 2 + v.z ^ 2)

/-- Vector normalization, as `THREE.Vector3.normalize`. -/
noncomputable def normalizeV (v : V3) : V3 := smul (1 / v3len v) v

/-- JS truncation toward zero (`Math.trunc`), used to define the JS `%` operator. -/
noncomputable def rtrunc (x : ℝ) : ℤ := if 0 ≤ x then ⌊x⌋ else ⌈x⌉

/-- The JavaScript `%` operator on numbers: remainder with the sign of the
dividend, `a % b = a - b * trunc(a / b)`. -/
noncomputable def jsfmod (a b : ℝ) : ℝ := a - b * rtrunc (a / b)

/-- `a % b = a` when `0 ≤ a < b` (the case used at all concrete inputs below). -/
theorem jsfmod_of_nonneg_of_lt {a b : ℝ} (h0 : 0 ≤ a) (hab : a < b) :
    jsfmod a b = a := by
  have hb : 0 < b := lt_of_le_of_lt h0 hab
  have hdiv0 : 0 ≤ a / b := div_nonneg h0 hb.le
  have hdiv1 : a / b < 1 := (div_lt_one hb).mpr hab
  have hfl : ⌊a / b⌋ = 0 := Int.floor_eq_zero_iff.mpr ⟨hdiv0, hdiv1⟩
  simp [jsfmod, rtrunc, hdiv0, hfl]

/-- The angle normalizer inlined in `GameManager.checkOrientation`:
`a = a % 2π; if (a > π) a -= 2π; if (a < -π) a += 2π`. -/
noncomputable def normalizeAngle (a : ℝ) : ℝ :=
  let b := jsfmod a (2 * Real.pi)
  let c := if b > Real.pi then b - 2 * Real.pi else b
  if c < -Real.pi then c + 2 * Real.pi else c

/-- `normalizeAngle 2 = 2`: `2` is already in `(-π, π]` since `π > 3`. -/
theorem normalizeAngle_two : normalizeAngle 2 = 2 := by
  have hpi : (3 : ℝ) < Real.pi := Real.pi_gt_three
  have h2pi : (2 : ℝ) < 2 * Real.pi := by linarith
  have hmod : jsfmod 2 (2 * Real.pi) = 2 := jsfmod_of_nonneg_of_lt (by norm_num) h2pi
  unfold normalizeAngle
  simp only [hmod]
  rw [if_neg (show ¬((2:ℝ) > Real.pi) by linarith)]
  rw [if_neg (show ¬((2:ℝ) < -Real.pi) by linarith)]

/-- Chunk type tag. The JS records store `type: "JUNCTION"` for junctions and
no `type` property at all for straight chunks spawned by `spawnChunk`
(`untagged` models the absent property); `normal` models the value `"NORMAL"`
that `GameManager.checkOrientation` compares against but that no spawner in
`LevelManager.js` ever writes. -/
inductive ChunkTag where
  | normal
  | junction
  | untagged
deriving DecidableEq, Repr

/-- One path segment record as pushed onto `LevelManager.chunks`:
the mesh's world pose (`pos`, `rotY`), the type tag, the `hasTurned` latch
(absent in JS until first set, i.e. falsy — modelled as `false`), and the
stored `z` property used by `removeOldChunks`. -/
structure Chunk where
  pos : V3
  rotY : ℝ
  tag : ChunkTag
  hasTurned : Bool
  z : ℝ

/-- Inverse transform of a world point into a chunk's local frame
(`chunkMesh.worldToLocal`): translate by `-pos`, rotate by `-rotY` about Y. -/
noncomputable def worldToLocal (c : Chunk) (p : V3) : V3 :=
  let d := v3sub p c.pos
  ⟨d.x * Real.cos c.rotY - d.z * Real.sin c.rotY,
   d.y,
   d.x * Real.sin c.rotY + d.z * Real.cos c.rotY⟩

/-- `THREE.MathUtils.lerp(a, b, t) = a + (b - a) * t`. -/
def lerp (a b t : ℝ) : ℝ := a + (b - a) * t

/-- Forward direction of the character: `(0,0,-1)` rotated by the group's
Y-rotation (`forward.applyQuaternion(group.quaternion)`). -/
noncomputable def forwardOfYaw (yaw : ℝ) : V3 :=
  ⟨-Real.sin yaw, 0, -Real.cos yaw⟩

/-- Constraint mode passed to `setConstraintMode`: `'Z'` means "moving along Z,
constrain world X"; `'X'` means "moving along X, constrain world Z". The same
two-valued axis is the animator's `constraintAxis`. -/
inductive CAxis where
  | X
  | Z
deriving DecidableEq

/-- Turn command from the input channel: `"LEFT" | "RIGHT" | "CENTER"`. -/
inductive TurnCmd where
  | LEFT
  | RIGHT
  | CENTER
deriving DecidableEq

/-- Per-tick input read by `CharacterAnimator.update`. -/
structure AnimInput where
  momentum : ℝ
  turn : TurnCmd

/-- Movement-relevant state of `CharacterAnimator` plus the character group's
pose (`parts.group.position`, `parts.group.rotation.y/.z`). -/
structure AnimState where
  pos : V3
  speed : ℝ
  rotY : ℝ
  rotZ : ℝ
  cAxis : CAxis
  cCenter : ℝ
  isBlocked : Bool
  walkCycle : ℝ

def animMaxSpeed : ℝ := 0.15

def animTurnSpeed : ℝ := 0.035

def deviationMax : ℝ := 2.9

def centeringStrength : ℝ := 0.03

/-- One tick of `CharacterAnimator.update` (input_adapter.js), restricted to
the fields that movement logic touches: speed, group position, group yaw/roll
and the walk-cycle phase. Cosmetic limb posing is omitted (it reads but never
writes these fields). When `isBlocked` the code first sets `speed = 0` and the
whole movement-and-lane-assist block is skipped; clamping and centering act on
the coordinate orthogonal to `constraintAxis` after the forward advance. -/
noncomputable def animUpdate (s : AnimState) (input : AnimInput) : AnimState :=
  let sp := if s.isBlocked then (0 : ℝ) else lerp s.speed (input.momentum * animMaxSpeed) 0.1
  let p :=
    if s.isBlocked then s.pos
    else
      let moved := v3add s.pos (smul sp (forwardOfYaw s.rotY))
      match s.cAxis with
      | CAxis.Z =>
          let cx := max (s.cCenter - deviationMax) (min (s.cCenter + deviationMax) moved.x)
          let cx2 := if sp > 0.001 then lerp cx s.cCenter centeringStrength else cx
          ⟨cx2, moved.y, moved.z⟩
      | CAxis.X =>
          let cz := max (s.cCenter - deviationMax) (min (s.cCenter + deviationMax) moved.z)
          let cz2 := if sp > 0.001 then lerp cz s.cCenter centeringStrength else cz
          ⟨moved.x, moved.y, cz2⟩
  let ry :=
    match input.turn with
    | TurnCmd.LEFT => s.rotY + animTurnSpeed
    | TurnCmd.RIGHT => s.rotY - animTurnSpeed
    | TurnCmd.CENTER =>
        let target := (round (s.rotY / (Real.pi / 2)) : ℝ) * (Real.pi / 2)
        if |s.rotY - target| < 1 then lerp s.rotY target 0.15 else s.rotY
  let rz :=
    match input.turn with
    | TurnCmd.LEFT => lerp s.rotZ 0.05 0.05
    | TurnCmd.RIGHT => lerp s.rotZ (-0.05) 0.05
    | TurnCmd.CENTER => lerp s.rotZ 0 0.1
  let wc := if sp > 0.005 then s.walkCycle + sp * 1.5 else s.walkCycle
  { pos := p, speed := sp, rotY := ry, rotZ := rz,
    cAxis := s.cAxis, cCenter := s.cCenter, isBlocked := s.isBlocked, walkCycle := wc }

/-- Turn direction committed at a junction (`"LEFT" | "RIGHT"`). -/
inductive TurnDir where
  | left
  | right
deriving DecidableEq

/-- `CharacterController.handleTurn` in INSTANT mode (character_control.js):
an instant rotation of the group yaw by `+π/2` for LEFT, `-π/2` for RIGHT. -/
noncomputable def handleTurnInstant (yaw : ℝ) (dir : TurnDir) : ℝ :=
  match dir with
  | TurnDir.left => yaw + Real.pi / 2
  | TurnDir.right => yaw - Real.pi / 2

/-- The local axis named in `GameManager._applyLocalConstraint` calls. -/
inductive LAxis where
  | X
  | Z
deriving DecidableEq

/-- `GameManager._applyLocalConstraint`: translate a segment-local constraint
(lock `localAxis` to `v`) into the world-frame `setConstraintMode` call,
selecting by whether the chunk is Z-aligned (`|cos rotY| > 0.5`). -/
noncomputable def applyLocalConstraint (c : Chunk) (localAxis : LAxis) (v : ℝ) : CAxis × ℝ :=
  let isZAligned := |Real.cos c.rotY| > (0.5 : ℝ)
  match localAxis with
  | LAxis.X =>
      if isZAligned then (CAxis.Z, c.pos.x + v * Real.cos c.rotY)
      else (CAxis.X, c.pos.z - v * Real.sin c.rotY)
  | LAxis.Z =>
      if isZAligned then (CAxis.X, c.pos.z + v * Real.cos c.rotY)
      else (CAxis.Z, c.pos.x + v * Real.sin c.rotY)

/-- Result of one `checkOrientation` scan: the last constraint written to the
character (`setConstraintMode` is last-write-wins), the chunk list with any
`hasTurned` latch update, and the emitted turn event tagged with the index of
the junction chunk that fired it. -/
structure OrientResult where
  constraint : Option (CAxis × ℝ)
  chunks : List Chunk
  event : Option (ℕ × TurnDir)

/-- Loop body of `GameManager.checkOrientation`. `i` is the list index of the
first chunk of `cs`; `applied` is the `appliedConstraint` flag; `constr` is the
constraint most recently written to the character. A NORMAL chunk containing
the traveler applies its constraint and breaks; a JUNCTION chunk applies the
approach or side-path constraint without breaking, except that firing the turn
trigger (side path, past the 0.1 dead zone, unlatched, and the chunk is the
level manager's `activeJunction`, compared by identity and modelled by index)
sets the latch and breaks. -/
noncomputable def orientGo (pPos : V3) (charRotY : ℝ) (active : Option ℕ) :
    ℕ → Bool → Option (CAxis × ℝ) → List Chunk → OrientResult
  | _, _, constr, [] => ⟨constr, [], none⟩
  | i, applied, constr, c :: rest =>
    let lp := worldToLocal c pPos
    let inside :=
      if c.tag = ChunkTag.normal then |lp.x| < 10 ∧ |lp.z| < 12
      else |lp.x| < 18 ∧ |lp.z| < 12
    if ¬inside then
      let r := orientGo pPos charRotY active (i + 1) applied constr rest
      ⟨r.constraint, c :: r.chunks, r.event⟩
    else if c.tag = ChunkTag.normal then
      ⟨some (applyLocalConstraint c LAxis.X 0), c :: rest, none⟩
    else if c.tag = ChunkTag.junction ∧ applied = false then
      let nr := normalizeAngle (charRotY - c.rotY)
      if |nr| < 0.3 then
        let r := orientGo pPos charRotY active (i + 1) applied
          (some (applyLocalConstraint c LAxis.X 0)) rest
        ⟨r.constraint, c :: r.chunks, r.event⟩
      else
        let constr2 := some (applyLocalConstraint c LAxis.Z (-6.5))
        if |lp.x| > 0.1 ∧ c.hasTurned = false ∧ active = some i then
          ⟨constr2, { c with hasTurned := true } :: rest,
           some (i, if lp.x > 0 then TurnDir.left else TurnDir.right)⟩
        else
          let r := orientGo pPos charRotY active (i + 1) applied constr2 rest
          ⟨r.constraint, c :: r.chunks, r.event⟩
    else
      let r := orientGo pPos charRotY active (i + 1) applied constr rest
      ⟨r.constraint, c :: r.chunks, r.event⟩

/-- `GameManager.checkOrientation` over the whole chunk list. `active` is the
index of `levelManager.activeJunction` in the list (or `none`; in the source
as shipped the `activeJunction` property is never assigned, so `none` is what
running `GameManager` against `LevelManager.js` produces). -/
noncomputable def checkOrientation (pPos : V3) (charRotY : ℝ) (active : Option ℕ)
    (chunks : List Chunk) : OrientResult :=
  orientGo pPos charRotY active 0 false none chunks

/-- `GameManager.checkCollision`: final `(isBlocked, canTurn)` flags after the
scan. `b0`/`t0` are the character's incoming flags (every control path either
overwrites them or falls through to the trailing `if (!anyBlocking)` reset;
they never leak into the result, which the theorem for the collision claim
makes explicit). Only the most recently spawned JUNCTION chunk is examined. -/
noncomputable def checkCollision (b0 t0 : Bool) (pPos : V3) (charRotY : ℝ)
    (chunks : List Chunk) : Bool × Bool :=
  let latestJunction := chunks.reverse.find? (fun c => c.tag = ChunkTag.junction)
  let flagsAndBlocking : Bool × Bool × Bool :=
    match latestJunction with
    | none => (b0, t0, false)
    | some c =>
      let lp := worldToLocal c pPos
      let wallLocalZ := -(20 : ℝ) / 2
      let dist := |lp.z - wallLocalZ|
      if dist < 4 ∧ |lp.x| < 15 then
        let relativeRot := charRotY - c.rotY
        let nr := jsfmod (jsfmod relativeRot (2 * Real.pi) + Real.pi) (2 * Real.pi) - Real.pi
        if |nr| > 0.5 then (false, true, false)
        else (true, true, true)
      else (b0, t0, false)
  if flagsAndBlocking.2.2 = false then (false, false)
  else (flagsAndBlocking.1, flagsAndBlocking.2.1)

/-- Streaming state of `LevelManager`: the chunk list, the spawn cursor
`nextChunkZ`, the running `chunksSpawned` counter and the `stopSpawning` halt
flag set after a T-junction. -/
structure LMState where
  chunks : List Chunk
  nextChunkZ : ℝ
  chunksSpawned : ℕ
  stopSpawning : Bool

/-- Chunk record pushed by `LevelManager.spawnChunk`: mesh at
`(0, 0, z)` with no rotation, stored `z`, and NO `type` property
(`ChunkTag.untagged`). -/
def normalChunkAt (z0 : ℝ) : Chunk :=
  ⟨⟨0, 0, z0⟩, 0, ChunkTag.untagged, false, z0⟩

/-- Chunk record pushed by `LevelManager.spawnTJunction`: mesh at `(0, 0, z)`,
stored `z`, and `type: "JUNCTION"`. -/
def junctionChunkAt (z0 : ℝ) : Chunk :=
  ⟨⟨0, 0, z0⟩, 0, ChunkTag.junction, false, z0⟩

/-- `LevelManager.spawnChunk` (visuals elided): append the straight chunk at
the cursor and advance the cursor by one chunk length in `-Z`. -/
def spawnChunk (s : LMState) : LMState :=
  { s with chunks := s.chunks ++ [normalChunkAt s.nextChunkZ],
           nextChunkZ := s.nextChunkZ - 20 }

/-- `LevelManager.spawnTJunction` (visuals elided): append the T-junction chunk
at the cursor and advance the cursor. -/
def spawnTJunction (s : LMState) : LMState :=
  { s with chunks := s.chunks ++ [junctionChunkAt s.nextChunkZ],
           nextChunkZ := s.nextChunkZ - 20 }

def SEQUENCE_LENGTH : ℕ := 10

/-- `LevelManager.spawnSequence`: no-op while `stopSpawning`; otherwise spawn
a T-junction (and halt) when the running count is a positive multiple of
`SEQUENCE_LENGTH`, a straight chunk otherwise; always bump the counter. -/
def spawnSequence (s : LMState) : LMState :=
  if s.stopSpawning then s
  else if 0 < s.chunksSpawned ∧ s.chunksSpawned % SEQUENCE_LENGTH = 0 then
    let s1 := spawnTJunction s
    { s1 with stopSpawning := true, chunksSpawned := s1.chunksSpawned + 1 }
  else
    let s1 := spawnChunk s
    { s1 with chunksSpawned := s1.chunksSpawned + 1 }

/-- `LevelManager` state as initialized by the constructor before its initial
generation loop runs. -/
def lmInit : LMState := ⟨[], 0, 0, false⟩

/-- State after `n` calls to `spawnSequence` starting from the fresh manager. -/
def lmRun (n : ℕ) : LMState := spawnSequence^[n] lmInit

/-- `LevelManager.removeOldChunks`: with `cleanupThreshold = playerZ +
chunkLength * 2`, drop the oldest chunk (index 0) when its stored `z` exceeds
the threshold; at most one chunk is removed and no other chunk is examined. -/
noncomputable def removeOldChunks (playerZ : ℝ) (chunks : List Chunk) : List Chunk :=
  match chunks with
  | [] => []
  | oldest :: rest => if oldest.z > playerZ + 20 * 2 then rest else oldest :: rest

def renderDistance : ℕ := 6

/-- Rotate a heading by +90° about the vertical axis (a LEFT turn of the
growth direction, taking `(0,0,-1)` to `(-1,0,0)`). -/
def rotY90Left (v : V3) : V3 := ⟨v.z, v.y, -v.x⟩

/-- Rotate a heading by -90° about the vertical axis (a RIGHT turn). -/
def rotY90Right (v : V3) : V3 := ⟨-v.z, v.y, v.x⟩

/-- Intermediate quantities and outputs of the TurnCoordinator's cursor
recomputation. -/
structure TurnOutcome where
  junctionCenter : V3
  sideOffset : V3
  newHeading : V3
  newCursorPos : V3

/-- Modelled from the spec: `LevelManager.handleTurn` — the TurnCoordinator of
spec section 4.4 — is called from `GameManager.checkOrientation` but its
implementation is not under src/ (the `LevelManager.js` present there is an
earlier straight-line variant without it). Following the spec's steps: rotate
the cursor heading by a quarter turn (re-snapping to exact cardinals is the
identity in exact arithmetic); `junctionCenter = junctionPos + oldHeading *
((segmentLength - segmentWidth)/2)`; `perpendicular` is the unit horizontal
vector normal to `oldHeading`, with the cross-product order chosen so that the
spec's own concrete values hold (`perpendicular = (-1,0,0)` for `oldHeading =
(0,0,-1)`, section 8); `sideOffset = perpendicular * (directionSign *
(segmentLength + segmentWidth)/2)` with `directionSign = -1` for LEFT; new
cursor `= junctionCenter + sideOffset + newHeading * segmentLength`. The
computation reads only the junction's spawn-time frame and the cursor heading,
never the traveler's live pose. -/
noncomputable def handleTurnSpec (junctionPos : V3) (oldHeading : V3) (dir : TurnDir) :
    TurnOutcome :=
  let segmentLength := (20 : ℝ)
  let segmentWidth := (7 : ℝ)
  let newHeading :=
    match dir with
    | TurnDir.left => rotY90Left oldHeading
    | TurnDir.right => rotY90Right oldHeading
  let junctionCenter := v3add junctionPos (smul ((segmentLength - segmentWidth) / 2) oldHeading)
  let vertical : V3 := ⟨0, 1, 0⟩
  let perpendicular := normalizeV (cross vertical oldHeading)
  let directionSign : ℝ := match dir with | TurnDir.left => -1 | TurnDir.right => 1
  let sideOffset := smul (directionSign * ((segmentLength + segmentWidth) / 2)) perpendicular
  ⟨junctionCenter, sideOffset, newHeading,
   v3add (v3add junctionCenter sideOffset) (smul segmentLength newHeading)⟩

/-- C3: committing a LEFT turn at a junction spawned at `(0,0,0)` with old
heading `(0,0,-1)` (segmentLength 20, segmentWidth 7) recomputes the spawn
cursor from the junction's frame as `junctionCenter + sideOffset + newHeading
* segmentLength`, giving `junctionCenter = (0,0,-6.5)`, `sideOffset =
(13.5,0,0)`, new heading `(-1,0,0)` and new cursor `(-6.5,0,-6.5)`. The
traveler's live pose is not an input of the computation. -/
theorem turn_cursor_recomputation_left :
    handleTurnSpec ⟨0, 0, 0⟩ ⟨0, 0, -1⟩ TurnDir.left =
      ⟨⟨0, 0, -6.5⟩, ⟨13.5, 0, 0⟩, ⟨-1, 0, 0⟩, ⟨-6.5, 0, -6.5⟩⟩ := by
  unfold handleTurnSpec rotY90Left v3add smul cross normalizeV v3len
  norm_num [smul]

/-- C4: if the character's heading is exactly `(0,0,-1)`, an instant LEFT turn
makes it exactly `(-1,0,0)`, and a following instant RIGHT turn restores it to
exactly `(0,0,-1)` — exact equality of headings, no drift. -/
theorem heading_round_trip (yaw : ℝ) (h : forwardOfYaw yaw = ⟨0, 0, -1⟩) :
    forwardOfYaw (handleTurnInstant yaw TurnDir.left) = ⟨-1, 0, 0⟩ ∧
    forwardOfYaw (handleTurnInstant (handleTurnInstant yaw TurnDir.left) TurnDir.right) =
      ⟨0, 0, -1⟩ := by
  have hs : Real.sin yaw = 0 := by
    have := congrArg V3.x h
    simpa [forwardOfYaw] using this
  have hc : Real.cos yaw = 1 := by
    have := congrArg V3.z h
    simp only [forwardOfYaw] at this
    linarith
  constructor
  · unfold handleTurnInstant forwardOfYaw
    rw [Real.sin_add_pi_div_two, Real.cos_add_pi_div_two]
    simp [hs, hc]
  · unfold handleTurnInstant
    rw [add_sub_cancel_right]
    exact h

/-- Witness for the heading round trip at the initial yaw `0`. -/
theorem heading_round_trip_witness :
    forwardOfYaw (handleTurnInstant 0 TurnDir.left) = ⟨-1, 0, 0⟩ ∧
    forwardOfYaw (handleTurnInstant (handleTurnInstant 0 TurnDir.left) TurnDir.right) =
      ⟨0, 0, -1⟩ :=
  heading_round_trip 0 (by simp [forwardOfYaw])

/-- C10: on a tick where the blocked flag is set, `CharacterAnimator.update`
leaves the character group's position exactly unchanged — the forward advance,
the lateral clamp and the centering pull are all inside the not-blocked branch
and are skipped. -/
theorem blocked_position_unchanged (s : AnimState) (input : AnimInput)
    (h : s.isBlocked = true) : (animUpdate s input).pos = s.pos := by
  simp [animUpdate, h]

/-- Witness: a concrete blocked tick leaves the position unchanged. -/
theorem blocked_position_unchanged_witness :
    (animUpdate ⟨⟨1, 2, 3⟩, 0.1, 0.7, 0, CAxis.Z, 0, true, 0⟩ ⟨1, TurnCmd.CENTER⟩).pos
      = ⟨1, 2, 3⟩ :=
  blocked_position_unchanged ⟨⟨1, 2, 3⟩, 0.1, 0.7, 0, CAxis.Z, 0, true, 0⟩ ⟨1, TurnCmd.CENTER⟩ rfl

/-- Counterexample to C6 as stated: on a blocked tick with incoming speed
`0.15`, the code sets speed to `0` in one tick, not to the smoothed value
`0.15 + (0 - 0.15) * 0.1 = 0.135` the claim's exponential-decay rule
predicts — blocking IS an instantaneous stop. -/
theorem blocked_speed_counterexample :
    (animUpdate ⟨⟨0, 0, 0⟩, 0.15, 0, 0, CAxis.Z, 0, true, 0⟩ ⟨1, TurnCmd.CENTER⟩).speed = 0 ∧
    (0 : ℝ) ≠ 0.15 + (0 - 0.15) * 0.1 := by
  constructor
  · simp [animUpdate]
  · norm_num

/-- C6 as amended: on a blocked tick the speed is set to `0` immediately; on a
non-blocked tick it is exponentially smoothed toward `momentum * maxSpeed`
with factor `0.1`; and while blocked the speed never increases (it is `0`,
hence at most the incoming nonnegative speed). -/
theorem speed_update_characterization (s : AnimState) (input : AnimInput) :
    ((animUpdate s input).speed =
      if s.isBlocked then 0 else lerp s.speed (input.momentum * animMaxSpeed) 0.1) ∧
    (s.isBlocked = true → 0 ≤ s.speed → (animUpdate s input).speed ≤ s.speed) := by
  constructor
  · rfl
  · intro hb hs
    simp [animUpdate, hb, hs]

/-- Witness: the speed characterization at a concrete blocked state. -/
theorem speed_update_characterization_witness :
    ((animUpdate ⟨⟨0, 0, 0⟩, 0.05, 0, 0, CAxis.Z, 0, true, 0⟩ ⟨1, TurnCmd.CENTER⟩).speed =
      if true then 0 else lerp 0.05 (1 * animMaxSpeed) 0.1) ∧
    (animUpdate ⟨⟨0, 0, 0⟩, 0.05, 0, 0, CAxis.Z, 0, true, 0⟩ ⟨1, TurnCmd.CENTER⟩).speed ≤ 0.05 :=
  ⟨(speed_update_characterization ⟨⟨0, 0, 0⟩, 0.05, 0, 0, CAxis.Z, 0, true, 0⟩
      ⟨1, TurnCmd.CENTER⟩).1,
   (speed_update_characterization ⟨⟨0, 0, 0⟩, 0.05, 0, 0, CAxis.Z, 0, true, 0⟩
      ⟨1, TurnCmd.CENTER⟩).2 rfl (by norm_num)⟩

/-- Clamping to `[c - deviationMax, c + deviationMax]` followed by the
speed-gated centering pull keeps the coordinate inside the band. -/
theorem clamp_center_bounds (c m sp : ℝ) :
    c - deviationMax ≤
        (if sp > 0.001 then
          lerp (max (c - deviationMax) (min (c + deviationMax) m)) c centeringStrength
        else max (c - deviationMax) (min (c + deviationMax) m)) ∧
      (if sp > 0.001 then
          lerp (max (c - deviationMax) (min (c + deviationMax) m)) c centeringStrength
        else max (c - deviationMax) (min (c + deviationMax) m)) ≤
        c + deviationMax := by
  have h1 : c - deviationMax ≤ max (c - deviationMax) (min (c + deviationMax) m) :=
    le_max_left _ _
  have h2 : max (c - deviationMax) (min (c + deviationMax) m) ≤ c + deviationMax :=
    max_le (by unfold deviationMax; linarith) (min_le_left _ _)
  unfold lerp centeringStrength
  split
  · constructor <;> nlinarith
  · exact ⟨h1, h2⟩

/-- Counterexample to C5 as stated: on a blocked tick the whole lane-assist
block (including the clamp) is skipped, so under the active constraint
`{axis := Z, center := 0}` the off-axis coordinate `100` survives the tick,
far outside `[center - 2.9, center + 2.9]`. -/
theorem lateral_clamp_counterexample :
    (animUpdate ⟨⟨100, 0, 0⟩, 0, 0, 0, CAxis.Z, 0, true, 0⟩ ⟨0, TurnCmd.CENTER⟩).pos.x = 100 ∧
    ¬((0 : ℝ) - deviationMax ≤ 100 ∧ (100 : ℝ) ≤ 0 + deviationMax) := by
  constructor
  · simp [animUpdate]
  · unfold deviationMax
    norm_num

/-- C5 as amended: on every tick on which the blocked flag is clear, after
`CharacterAnimator.update` the off-axis coordinate (x under a Z-axis
constraint, z under an X-axis constraint) lies within
`[center - deviationMax, center + deviationMax]`; the clamp runs on every
such tick, and the centering pull additionally only when the updated speed
exceeds `0.001`. On blocked ticks the block is skipped entirely. -/
theorem lateral_clamp_when_not_blocked (s : AnimState) (input : AnimInput)
    (h : s.isBlocked = false) :
    (s.cAxis = CAxis.Z →
      s.cCenter - deviationMax ≤ (animUpdate s input).pos.x ∧
      (animUpdate s input).pos.x ≤ s.cCenter + deviationMax) ∧
    (s.cAxis = CAxis.X →
      s.cCenter - deviationMax ≤ (animUpdate s input).pos.z ∧
      (animUpdate s input).pos.z ≤ s.cCenter + deviationMax) := by
  constructor
  · intro hA
    simpa [animUpdate, h, hA] using
      clamp_center_bounds s.cCenter (v3add s.pos (smul (lerp s.speed (input.momentum * animMaxSpeed) 0.1) (forwardOfYaw s.rotY))).x
        (lerp s.speed (input.momentum * animMaxSpeed) 0.1)
  · intro hA
    simpa [animUpdate, h, hA] using
      clamp_center_bounds s.cCenter (v3add s.pos (smul (lerp s.speed (input.momentum * animMaxSpeed) 0.1) (forwardOfYaw s.rotY))).z
        (lerp s.speed (input.momentum * animMaxSpeed) 0.1)

/-- Witness: the clamp bound at a concrete non-blocked state whose incoming
off-axis coordinate 5 exceeds the band. -/
theorem lateral_clamp_when_not_blocked_witness :
    (0 : ℝ) - deviationMax ≤
        (animUpdate ⟨⟨5, 0, 0⟩, 0, 0, 0, CAxis.Z, 0, false, 0⟩ ⟨0, TurnCmd.CENTER⟩).pos.x ∧
      (animUpdate ⟨⟨5, 0, 0⟩, 0, 0, 0, CAxis.Z, 0, false, 0⟩ ⟨0, TurnCmd.CENTER⟩).pos.x ≤
        0 + deviationMax :=
  (lateral_clamp_when_not_blocked ⟨⟨5, 0, 0⟩, 0, 0, 0, CAxis.Z, 0, false, 0⟩
    ⟨0, TurnCmd.CENTER⟩ rfl).1 rfl

/-- Counterexample to C9 as stated: the eviction threshold in
`removeOldChunks` is `playerZ + 2 * chunkLength = playerZ + 40`, not
`(renderDistance + 2) * segmentLength = 160`: with the traveler at z = -100,
the oldest chunk at z = -50 (distance 50) is evicted even though the claim's
threshold would keep it. -/
theorem eviction_threshold_counterexample :
    removeOldChunks (-100) [normalChunkAt (-50)] = [] ∧
    ¬(|(normalChunkAt (-50)).z - (-100 : ℝ)| > ((renderDistance : ℝ) + 2) * 20) := by
  constructor
  · simp only [removeOldChunks]
    rw [if_pos (by norm_num [normalChunkAt])]
  · norm_num [normalChunkAt, renderDistance]

/-- C9 as amended: each `removeOldChunks` call removes at most the single
oldest chunk (the rest of the list is never scanned), and it removes the
oldest chunk exactly when its stored z exceeds `playerZ + 2 * chunkLength`
(i.e. it sits more than 40 world units behind the traveler in +Z) — not the
spec's `(renderDistance + 2) * segmentLength`. -/
theorem eviction_characterization (p : ℝ) (cs : List Chunk) :
    (removeOldChunks p cs = cs ∨ removeOldChunks p cs = cs.drop 1) ∧
    (∀ c rest, cs = c :: rest → (removeOldChunks p cs = rest ↔ c.z > p + 20 * 2)) := by
  cases cs with
  | nil =>
    refine ⟨Or.inl rfl, ?_⟩
    intro c rest h
    exact absurd h (by simp)
  | cons c rest =>
    constructor
    · by_cases hc : c.z > p + 20 * 2
      · right
        simp [removeOldChunks, hc]
      · left
        simp [removeOldChunks, hc]
    · intro c' rest' h
      obtain ⟨rfl, rfl⟩ : c' = c ∧ rest' = rest := by
        injection h with h1 h2
        exact ⟨h1.symm, h2.symm⟩
      constructor
      · intro he
        by_contra hc
        rw [removeOldChunks, if_neg hc] at he
        exact List.cons_ne_self c' rest' he
      · intro hc
        rw [removeOldChunks, if_pos hc]

/-- Witness: the eviction characterization at a concrete call that evicts. -/
theorem eviction_characterization_witness :
    (removeOldChunks 0 [normalChunkAt 100] = [normalChunkAt 100] ∨
      removeOldChunks 0 [normalChunkAt 100] = [normalChunkAt 100].drop 1) ∧
    (removeOldChunks 0 [normalChunkAt 100] = [] ↔ (normalChunkAt 100).z > 0 + 20 * 2) :=
  ⟨(eviction_characterization 0 [normalChunkAt 100]).1,
   (eviction_characterization 0 [normalChunkAt 100]).2 (normalChunkAt 100) [] rfl⟩

/-- Closed form of the spawn run from the fresh manager: `n ≤ 10` gives `n`
straight chunks and a live cursor; from call 11 on, ten straight chunks, the
T-junction at z = -200, and the halted flag. -/
def lmClosed (n : ℕ) : LMState :=
  if n ≤ 10 then
    ⟨(List.range n).map (fun k : ℕ => normalChunkAt (-(20 : ℝ) * (k : ℝ))),
     -(20 : ℝ) * (n : ℝ), n, false⟩
  else
    ⟨((List.range 10).map (fun k : ℕ => normalChunkAt (-(20 : ℝ) * (k : ℝ)))) ++
       [junctionChunkAt (-200)],
     -220, 11, true⟩

theorem lmRun_succ (n : ℕ) : lmRun (n + 1) = spawnSequence (lmRun n) :=
  Function.iterate_succ_apply' spawnSequence n lmInit

theorem lmRun_eq_lmClosed (n : ℕ) : lmRun n = lmClosed n := by
  induction n with
  | zero =>
    show lmInit = lmClosed 0
    unfold lmInit lmClosed
    norm_num
  | succ n ih =>
    rw [lmRun_succ, ih]
    rcases lt_trichotomy n 10 with hlt | heq | hgt
    · have hn1 : n + 1 ≤ 10 := hlt
      have hcond : ¬(0 < n ∧ n % SEQUENCE_LENGTH = 0) := by
        rintro ⟨hpos, hmod⟩
        interval_cases n <;> simp_all [SEQUENCE_LENGTH]
      unfold lmClosed
      rw [if_pos (le_of_lt hlt), if_pos hn1]
      unfold spawnSequence
      rw [if_neg (by simp)]
      rw [if_neg (by simpa using hcond)]
      unfold spawnChunk
      rw [List.range_succ, List.map_append]
      simp only [LMState.mk.injEq, List.map_cons, List.map_nil, and_true, true_and]
      push_cast
      ring
    · subst heq
      unfold lmClosed
      rw [if_pos (by norm_num), if_neg (by norm_num)]
      unfold spawnSequence
      rw [if_neg (by simp)]
      rw [if_pos (by norm_num [SEQUENCE_LENGTH])]
      unfold spawnTJunction
      simp only [LMState.mk.injEq]
      norm_num
    · have h1 : ¬(n ≤ 10) := by omega
      have h2 : ¬(n + 1 ≤ 10) := by omega
      unfold lmClosed
      rw [if_neg h1, if_neg h2]
      unfold spawnSequence
      rw [if_pos (by simp)]

/-- C2: in the run of spawn calls from the fresh manager with no intervening
turn, the n-th call appends a JUNCTION chunk exactly when the running
`chunksSpawned` count is a positive multiple of `SEQUENCE_LENGTH`; every other
call that is not halted appends a straight (untagged) chunk; and once a
junction has set `stopSpawning`, every subsequent call leaves the state
exactly unchanged. -/
theorem spawn_pattern (n : ℕ) (hn : 1 ≤ n) :
    ((∃ c, c.tag = ChunkTag.junction ∧ (lmRun n).chunks = (lmRun (n - 1)).chunks ++ [c]) ↔
      0 < (lmRun (n - 1)).chunksSpawned ∧
        (lmRun (n - 1)).chunksSpawned % SEQUENCE_LENGTH = 0) ∧
    ((lmRun (n - 1)).stopSpawning = false →
      ¬(0 < (lmRun (n - 1)).chunksSpawned ∧
          (lmRun (n - 1)).chunksSpawned % SEQUENCE_LENGTH = 0) →
      ∃ c, c.tag = ChunkTag.untagged ∧ (lmRun n).chunks = (lmRun (n - 1)).chunks ++ [c]) ∧
    ((lmRun (n - 1)).stopSpawning = true → lmRun n = lmRun (n - 1)) := by
  obtain ⟨m, rfl⟩ : ∃ m, n = m + 1 := ⟨n - 1, by omega⟩
  simp only [Nat.add_sub_cancel]
  rw [lmRun_succ]
  rw [lmRun_eq_lmClosed]
  rcases lt_trichotomy m 10 with hlt | heq | hgt
  · have hm : m ≤ 10 := le_of_lt hlt
    have hcond : ¬(0 < m ∧ m % SEQUENCE_LENGTH = 0) := by
      rintro ⟨hpos, hmod⟩
      interval_cases m <;> simp_all [SEQUENCE_LENGTH]
    have hchunks : (spawnSequence (lmClosed m)).chunks = (lmClosed m).chunks ++
        [normalChunkAt (-(20 : ℝ) * m)] := by
      unfold lmClosed
      rw [if_pos hm]
      unfold spawnSequence
      rw [if_neg (by simp)]
      rw [if_neg (by simpa using hcond)]
      rfl
    refine ⟨?_, ?_, ?_⟩
    · constructor
      · rintro ⟨c, hc, heq⟩
        rw [hchunks] at heq
        have := List.append_cancel_left heq
        injection this with h1 _
        rw [← h1] at hc
        simp [normalChunkAt] at hc
      · intro hcount
        exact absurd (by simpa [lmClosed, hm] using hcount) hcond
    · intro _ _
      exact ⟨normalChunkAt (-(20 : ℝ) * m), rfl, hchunks⟩
    · intro hstop
      rw [lmClosed, if_pos hm] at hstop
      simp at hstop
  · subst heq
    have hchunks : (spawnSequence (lmClosed 10)).chunks = (lmClosed 10).chunks ++
        [junctionChunkAt (-200)] := by
      unfold lmClosed
      rw [if_pos (by norm_num)]
      unfold spawnSequence
      rw [if_neg (by simp)]
      rw [if_pos (by norm_num [SEQUENCE_LENGTH])]
      show _ ++ [junctionChunkAt (-(20 : ℝ) * (10 : ℕ))] = _ ++ _
      norm_num
    refine ⟨?_, ?_, ?_⟩
    · constructor
      · intro _
        simp [lmClosed, SEQUENCE_LENGTH]
      · intro _
        exact ⟨junctionChunkAt (-200), rfl, hchunks⟩
    · intro _ hcond
      exact absurd (by simp [lmClosed, SEQUENCE_LENGTH]) hcond
    · intro hstop
      rw [lmClosed, if_pos (by norm_num)] at hstop
      simp at hstop
  · have h1 : ¬(m ≤ 10) := by omega
    have hnoop : spawnSequence (lmClosed m) = lmClosed m := by
      unfold lmClosed
      rw [if_neg h1]
      unfold spawnSequence
      rw [if_pos (by simp)]
    refine ⟨?_, ?_, ?_⟩
    · rw [hnoop]
      constructor
      · rintro ⟨c, _, heq⟩
        have := congrArg List.length heq
        simp at this
      · rintro ⟨_, hmod⟩
        rw [lmClosed, if_neg h1] at hmod
        simp [SEQUENCE_LENGTH] at hmod
    · intro hstop _
      rw [lmClosed, if_neg h1] at hstop
      simp at hstop
    · intro _
      rw [hnoop]

/-- Witness: the spawn pattern at call 11, where the running count is 10 and
the junction is produced. -/
theorem spawn_pattern_witness :
    ((∃ c, c.tag = ChunkTag.junction ∧ (lmRun 11).chunks = (lmRun 10).chunks ++ [c]) ↔
      0 < (lmRun 10).chunksSpawned ∧ (lmRun 10).chunksSpawned % SEQUENCE_LENGTH = 0) ∧
    ((lmRun 10).stopSpawning = false →
      ¬(0 < (lmRun 10).chunksSpawned ∧ (lmRun 10).chunksSpawned % SEQUENCE_LENGTH = 0) →
      ∃ c, c.tag = ChunkTag.untagged ∧ (lmRun 11).chunks = (lmRun 10).chunks ++ [c]) ∧
    ((lmRun 10).stopSpawning = true → lmRun 11 = lmRun 10) :=
  spawn_pattern 11 (by norm_num)

/-- The collision-flag table exactly as the claim states it: inside the
trigger zone of the most recent junction, a traveler rotated into a side
path gets `blocked = false, turnEligible = true`. Written for comparison
with `checkCollision`. -/
noncomputable def checkCollisionClaimed (pPos : V3) (charRotY : ℝ)
    (chunks : List Chunk) : Bool × Bool :=
  match chunks.reverse.find? (fun c => c.tag = ChunkTag.junction) with
  | none => (false, false)
  | some c =>
    let lp := worldToLocal c pPos
    let dist := |lp.z - (-(20 : ℝ) / 2)|
    if dist < 4 ∧ |lp.x| < 15 then
      let nr := jsfmod (jsfmod (charRotY - c.rotY) (2 * Real.pi) + Real.pi) (2 * Real.pi) -
        Real.pi
      if |nr| > 0.5 then (false, true) else (true, true)
    else (false, false)

/-- The collision-flag table the code actually realizes: identical to the
claimed table except that in the side-path case the trailing
`if (!anyBlocking)` reset also clears `canTurn`, giving `(false, false)`. -/
noncomputable def checkCollisionActual (pPos : V3) (charRotY : ℝ)
    (chunks : List Chunk) : Bool × Bool :=
  match chunks.reverse.find? (fun c => c.tag = ChunkTag.junction) with
  | none => (false, false)
  | some c =>
    let lp := worldToLocal c pPos
    let dist := |lp.z - (-(20 : ℝ) / 2)|
    if dist < 4 ∧ |lp.x| < 15 then
      let nr := jsfmod (jsfmod (charRotY - c.rotY) (2 * Real.pi) + Real.pi) (2 * Real.pi) -
        Real.pi
      if |nr| > 0.5 then (false, false) else (true, true)
    else (false, false)

theorem jsfmod_two_two_pi : jsfmod 2 (2 * Real.pi) = 2 := by
  have hpi : (3 : ℝ) < Real.pi := Real.pi_gt_three
  exact jsfmod_of_nonneg_of_lt (by norm_num) (by linarith)

theorem jsfmod_two_add_pi : jsfmod (2 + Real.pi) (2 * Real.pi) = 2 + Real.pi := by
  have hpi : (3 : ℝ) < Real.pi := Real.pi_gt_three
  exact jsfmod_of_nonneg_of_lt (by linarith) (by linarith)

/-- Counterexample to C8 as stated: traveler at `(0,1,-8)` inside the trigger
zone of the junction spawned at the origin (distance 2 to the far wall,
lateral 0) and rotated into a side path (relative yaw 2 rad). The claim says
the final flags are `blocked = false, turnEligible = true`; the code's final
flags are `(false, false)` because the trailing no-blocking reset overwrites
the transient `setCanTurn(true)`. -/
theorem collision_flags_counterexample :
    checkCollision false false ⟨0, 1, -8⟩ 2 [junctionChunkAt 0] = (false, false) ∧
    checkCollisionClaimed ⟨0, 1, -8⟩ 2 [junctionChunkAt 0] = (false, true) ∧
    (((false : Bool), (false : Bool)) : Bool × Bool) ≠ ((false : Bool), (true : Bool)) := by
  have hpi : (3 : ℝ) < Real.pi := Real.pi_gt_three
  have hzone : |(-8 : ℝ) - -(20 : ℝ) / 2| < 4 ∧ |(0 : ℝ)| < 15 := by norm_num
  have hside : (1 : ℝ) / 2 <
      |jsfmod (jsfmod 2 (2 * Real.pi) + Real.pi) (2 * Real.pi) - Real.pi| := by
    rw [jsfmod_two_two_pi, jsfmod_two_add_pi]
    rw [add_sub_cancel_right]
    norm_num
  refine ⟨?_, ?_, by simp⟩
  · unfold checkCollision
    simp only [junctionChunkAt, List.reverse_singleton, List.find?_singleton,
      worldToLocal, v3sub]
    norm_num [hside]
  · unfold checkCollisionClaimed
    simp only [junctionChunkAt, List.reverse_singleton, List.find?_singleton,
      worldToLocal, v3sub]
    norm_num [hside]

/-- C8 as amended: for every incoming flag state and every tick,
`checkCollision` realizes exactly the claimed decision table with the
side-path case corrected to `blocked = false, turnEligible = false` (the
transient `setCanTurn(true)` of that branch is overwritten by the trailing
no-blocking reset before the tick ends); in particular the incoming flags
never leak into the result and only the most recently spawned junction is
consulted. -/
theorem collision_flags_characterization (b0 t0 : Bool) (pPos : V3) (charRotY : ℝ)
    (chunks : List Chunk) :
    checkCollision b0 t0 pPos charRotY chunks = checkCollisionActual pPos charRotY chunks := by
  unfold checkCollision checkCollisionActual
  cases hfind : chunks.reverse.find? (fun c => c.tag = ChunkTag.junction) with
  | none => simp
  | some c =>
    simp only []
    by_cases h1 : |(worldToLocal c pPos).z - -(20 : ℝ) / 2| < 4 ∧ |(worldToLocal c pPos).x| < 15
    · by_cases h2 : |jsfmod (jsfmod (charRotY - c.rotY) (2 * Real.pi) + Real.pi)
          (2 * Real.pi) - Real.pi| > 0.5
      · simp [h1, h2]
      · simp [h1, h2]
    · simp [h1]

/-- C1 fails on the code as shipped: `spawnChunk` pushes chunks without a
`type` property, so `checkOrientation`'s NORMAL branch (and with it the
NORMAL-over-JUNCTION priority its comments promise) never fires. Concretely,
with the straight chunk spawned at z = -180 and the junction at z = -200, the
traveler at `(0,1,-190)` rotated by 2 rad is inside the straight chunk's
NORMAL bounds and inside the junction's bounds, the straight chunk's own
constraint would be `(Z, 0)` (world X locked to the corridor center), yet the
scan resolves the junction's side-path constraint `(X, -206.5)` (world Z
locked to the junction's lateral line). -/
theorem normal_priority_failure :
    (|(worldToLocal (normalChunkAt (-180)) ⟨0, 1, -190⟩).x| < 10 ∧
      |(worldToLocal (normalChunkAt (-180)) ⟨0, 1, -190⟩).z| < 12) ∧
    (|(worldToLocal (junctionChunkAt (-200)) ⟨0, 1, -190⟩).x| < 18 ∧
      |(worldToLocal (junctionChunkAt (-200)) ⟨0, 1, -190⟩).z| < 12) ∧
    applyLocalConstraint (normalChunkAt (-180)) LAxis.X 0 = (CAxis.Z, 0) ∧
    (checkOrientation ⟨0, 1, -190⟩ 2 none
        [normalChunkAt (-180), junctionChunkAt (-200)]).constraint =
      some (CAxis.X, -206.5) ∧
    some ((CAxis.X, (-206.5 : ℝ))) ≠ some ((CAxis.Z, (0 : ℝ))) := by
  refine ⟨?_, ?_, ?_, ?_, ?_⟩
  · constructor <;> · norm_num [worldToLocal, v3sub, normalChunkAt]
  · constructor <;> · norm_num [worldToLocal, v3sub, junctionChunkAt]
  · unfold applyLocalConstraint normalChunkAt
    norm_num
  · unfold checkOrientation
    simp only [orientGo, worldToLocal, v3sub, normalChunkAt, junctionChunkAt]
    norm_num [normalizeAngle_two, applyLocalConstraint]
    simp
  · simp

/-- Per-tick inputs of the orientation scan: traveler pose and the identity
(index) of the level manager's active junction at that tick. -/
structure OTick where
  p : V3
  rotY : ℝ
  active : Option ℕ

/-- One `checkOrientation` tick viewed as a transition on the chunk list,
paired with the emitted turn event. -/
noncomputable def orientStep (t : OTick) (cs : List Chunk) :
    List Chunk × Option (ℕ × TurnDir) :=
  ((checkOrientation t.p t.rotY t.active cs).chunks,
   (checkOrientation t.p t.rotY t.active cs).event)

/-- The stream of turn events emitted over a run of orientation ticks. -/
noncomputable def orientRun : List OTick → List Chunk → List (ℕ × TurnDir)
  | [], _ => []
  | t :: ts, cs =>
    (match (orientStep t cs).2 with
     | none => []
     | some e => [e]) ++ orientRun ts (orientStep t cs).1

/-- Number of turn events attributed to the chunk at index `k`. -/
def eventsAt (k : ℕ) (evs : List (ℕ × TurnDir)) : ℕ :=
  evs.countP (fun e => decide (e.1 = k))

theorem listGet_set_self {α : Type} :
    ∀ (l : List α) (k : ℕ) (a c : α), l.get? k = some c → (l.set k a).get? k = some a := by
  intro l
  induction l with
  | nil => intro k a c h; simp at h
  | cons x xs ih =>
    intro k a c h
    cases k with
    | zero => rfl
    | succ k => exact ih k a c h

theorem listGet_set_ne {α : Type} :
    ∀ (l : List α) (j k : ℕ) (a : α), j ≠ k → (l.set j a).get? k = l.get? k := by
  intro l
  induction l with
  | nil => intro j k a _; simp
  | cons x xs ih =>
    intro j k a hjk
    cases j with
    | zero =>
      cases k with
      | zero => exact absurd rfl hjk
      | succ k => rfl
    | succ j =>
      cases k with
      | zero => rfl
      | succ k => exact ih j k a (fun h => hjk (congrArg Nat.succ h))

/-- Case analysis of one orientation scan: either no turn event fires and the
chunk list is returned unchanged, or the event fires for exactly one chunk —
one whose latch was still clear and which is the active junction — and the
only state change is setting that chunk's latch. -/
theorem orientGo_cases (pPos : V3) (rotY : ℝ) (active : Option ℕ) :
    ∀ (cs : List Chunk) (i : ℕ) (applied : Bool) (constr : Option (CAxis × ℝ)),
      ((orientGo pPos rotY active i applied constr cs).event = none ∧
        (orientGo pPos rotY active i applied constr cs).chunks = cs) ∨
      (∃ m d c, cs.get? m = some c ∧ c.hasTurned = false ∧
        (orientGo pPos rotY active i applied constr cs).event = some (i + m, d) ∧
        active = some (i + m) ∧
        (orientGo pPos rotY active i applied constr cs).chunks =
          cs.set m { c with hasTurned := true }) := by
  intro cs
  induction cs with
  | nil =>
    intro i applied constr
    left
    exact ⟨rfl, rfl⟩
  | cons c rest ih =>
    intro i applied constr
    have step : ∀ (constr2 : Option (CAxis × ℝ)),
        ((⟨(orientGo pPos rotY active (i + 1) applied constr2 rest).constraint,
            c :: (orientGo pPos rotY active (i + 1) applied constr2 rest).chunks,
            (orientGo pPos rotY active (i + 1) applied constr2 rest).event⟩ : OrientResult).event
            = none ∧
          (⟨(orientGo pPos rotY active (i + 1) applied constr2 rest).constraint,
            c :: (orientGo pPos rotY active (i + 1) applied constr2 rest).chunks,
            (orientGo pPos rotY active (i + 1) applied constr2 rest).event⟩ :
              OrientResult).chunks = c :: rest) ∨
        (∃ m d c', (c :: rest).get? m = some c' ∧ c'.hasTurned = false ∧
          (⟨(orientGo pPos rotY active (i + 1) applied constr2 rest).constraint,
            c :: (orientGo pPos rotY active (i + 1) applied constr2 rest).chunks,
            (orientGo pPos rotY active (i + 1) applied constr2 rest).event⟩ :
              OrientResult).event = some (i + m, d) ∧
          active = some (i + m) ∧
          (⟨(orientGo pPos rotY active (i + 1) applied constr2 rest).constraint,
            c :: (orientGo pPos rotY active (i + 1) applied constr2 rest).chunks,
            (orientGo pPos rotY active (i + 1) applied constr2 rest).event⟩ :
              OrientResult).chunks = (c :: rest).set m { c' with hasTurned := true }) := by
      intro constr2
      rcases ih (i + 1) applied constr2 with ⟨hev, hch⟩ | ⟨m, d, c', hget, hfalse, hev, hact, hch⟩
      · left
        exact ⟨hev, by rw [hch]⟩
      · right
        have harith : i + 1 + m = i + (m + 1) := by omega
        refine ⟨m + 1, d, c', hget, hfalse, ?_, ?_, ?_⟩
        · show (orientGo pPos rotY active (i + 1) applied constr2 rest).event = _
          rw [hev, harith]
        · rw [harith] at hact
          exact hact
        · show c :: (orientGo pPos rotY active (i + 1) applied constr2 rest).chunks = _
          rw [hch]
          rfl
    simp only [orientGo]
    by_cases h1 : ¬(if c.tag = ChunkTag.normal then
        |(worldToLocal c pPos).x| < 10 ∧ |(worldToLocal c pPos).z| < 12
      else |(worldToLocal c pPos).x| < 18 ∧ |(worldToLocal c pPos).z| < 12)
    · rw [if_pos h1]
      exact step constr
    · rw [if_neg h1]
      by_cases h2 : c.tag = ChunkTag.normal
      · rw [if_pos h2]
        left
        exact ⟨rfl, rfl⟩
      · rw [if_neg h2]
        by_cases h3 : c.tag = ChunkTag.junction ∧ applied = false
        · rw [if_pos h3]
          by_cases h4 : |normalizeAngle (rotY - c.rotY)| < 0.3
          · rw [if_pos h4]
            exact step (some (applyLocalConstraint c LAxis.X 0))
          · rw [if_neg h4]
            by_cases h5 : |(worldToLocal c pPos).x| > 0.1 ∧ c.hasTurned = false ∧
                active = some i
            · rw [if_pos h5]
              right
              refine ⟨0, (if (worldToLocal c pPos).x > 0 then TurnDir.left else TurnDir.right),
                c, rfl, h5.2.1, ?_, ?_, rfl⟩
              · rw [Nat.add_zero]
              · rw [Nat.add_zero]
                exact h5.2.2
            · rw [if_neg h5]
              exact step (some (applyLocalConstraint c LAxis.Z (-6.5)))
        · rw [if_neg h3]
          exact step constr

/-- Specialization of `orientGo_cases` to a whole tick. -/
theorem orientStep_cases (t : OTick) (cs : List Chunk) :
    ((orientStep t cs).2 = none ∧ (orientStep t cs).1 = cs) ∨
    (∃ j d c, cs.get? j = some c ∧ c.hasTurned = false ∧
      (orientStep t cs).2 = some (j, d) ∧
      (orientStep t cs).1 = cs.set j { c with hasTurned := true }) := by
  unfold orientStep checkOrientation
  rcases orientGo_cases t.p t.rotY t.active cs 0 false none with
    ⟨hev, hch⟩ | ⟨m, d, c, hget, hfalse, hev, _, hch⟩
  · left
    exact ⟨hev, hch⟩
  · right
    refine ⟨m, d, c, hget, hfalse, ?_, hch⟩
    rw [hev, Nat.zero_add]

/-- Once a chunk's latch is set, no run of further ticks ever attributes
another turn event to it (and the latch itself survives every tick). -/
theorem run_no_event_at_latched :
    ∀ (ts : List OTick) (cs : List Chunk) (k : ℕ) (c : Chunk),
      cs.get? k = some c → c.hasTurned = true → eventsAt k (orientRun ts cs) = 0 := by
  intro ts
  induction ts with
  | nil =>
    intro cs k c _ _
    rfl
  | cons t ts ih =>
    intro cs k c h hc
    rcases orientStep_cases t cs with ⟨hev, hch⟩ | ⟨j, d, c', hget, hfalse, hev, hch⟩
    · simp only [orientRun]
      rw [hev]
      simp only [List.nil_append]
      rw [hch]
      exact ih cs k c h hc
    · have hkj : j ≠ k := by
        intro hjk
        subst hjk
        rw [h] at hget
        injection hget with e
        rw [← e] at hfalse
        rw [hfalse] at hc
        exact Bool.false_ne_true hc
      have h2 : (orientStep t cs).1.get? k = some c := by
        rw [hch]
        rw [listGet_set_ne cs j k _ hkj]
        exact h
      simp only [orientRun]
      rw [hev]
      simp only [eventsAt, List.countP_append, List.countP_cons, List.countP_nil]
      have hd : decide ((j, d).1 = k) = false := by
        simp [hkj]
      rw [hd]
      simpa [eventsAt] using ih _ k c h2 hc

/-- C7: over any run of orientation ticks from any chunk list, at most one
turn event is ever attributed to any given chunk: the first trigger sets the
`hasTurned` latch, the latch is never cleared, and a latched chunk can never
fire again. -/
theorem turn_event_at_most_once (ts : List OTick) (cs : List Chunk) (k : ℕ) :
    eventsAt k (orientRun ts cs) ≤ 1 := by
  induction ts generalizing cs with
  | nil =>
    simp [orientRun, eventsAt]
  | cons t ts ih =>
    rcases orientStep_cases t cs with ⟨hev, hch⟩ | ⟨j, d, c, hget, hfalse, hev, hch⟩
    · simp only [orientRun]
      rw [hev]
      simp only [List.nil_append]
      exact ih _
    · simp only [orientRun]
      rw [hev]
      by_cases hjk : j = k
      · subst hjk
        have hlatch : (orientStep t cs).1.get? j = some { c with hasTurned := true } := by
          rw [hch]
          exact listGet_set_self cs j _ c hget
        have h0 : eventsAt j (orientRun ts (orientStep t cs).1) = 0 :=
          run_no_event_at_latched ts _ j _ hlatch rfl
        simp only [eventsAt, List.countP_append, List.countP_cons, List.countP_nil] at h0 ⊢
        simp [h0]
      · have hd : decide ((j, d).1 = k) = false := by
          simp [hjk]
        simp only [eventsAt, List.countP_append, List.countP_cons, List.countP_nil]
        rw [hd]
        simpa [eventsAt] using ih ((orientStep t cs).1)

end Corridor
